import Mathlib

/-!
Verification of the SIH data pipeline (sih-scraper-data.py and
sih-data-analysis.py) against its specification.

The Dataset is a sequence of (State, City) records.  Column operations of
the analyzer (value_counts, nunique, head, crosstab, nlargest) are embedded
as list functions; the CSV and JSON persistence formats are embedded as
character-list serializers and parsers; the scraper's per-URL loop is
embedded as a fold over abstract page responses.
-/

/-- One record of the Dataset: a (State, City) pair, as in
`pd.DataFrame({"State": states, "City": cities})`. -/
abbrev Row := String × String
/-- The Dataset: ordered sequence of records with columns State, City. -/
abbrev Dataset := List Row
/-- The State column of the Dataset, `df["State"]`. -/
def stateCol (df : Dataset) : List String := df.map Prod.fst
/-- The City column of the Dataset, `df["City"]`. -/
def cityCol (df : Dataset) : List String := df.map Prod.snd
/-- Distinct values of a column in order of first appearance (the keys of
pandas' hash-based counting structure). -/
def firstOccs {α : Type} [DecidableEq α] : List α → List α
  | [] => []
  | x :: xs => x :: (firstOccs xs).filter (fun y => decide (y ≠ x))
/-- Number of occurrences of the key `k` in the column `xs`. -/
def keyCount {α : Type} [DecidableEq α] (xs : List α) (k : α) : Nat :=
  (xs.filter (fun a => decide (a = k))).length
/-- Stable insertion of a keyed count into a list sorted by count in
descending order: the new entry goes after every entry of count at least as
large, so equal counts keep their existing order. -/
def insertDesc (a : String × Nat) : List (String × Nat) → List (String × Nat)
  | [] => [a]
  | b :: t => if b.2 < a.2 then a :: b :: t else b :: insertDesc a t
/-- Stable sort by count in descending order. -/
def sortDesc (l : List (String × Nat)) : List (String × Nat) :=
  l.foldr insertDesc []
/-- Frequency count of a column, `series.value_counts()`: distinct keys with
their multiplicities, sorted by count in descending order (a stable sort, so
ties keep first-appearance order). -/
def value_counts (xs : List String) : List (String × Nat) :=
  sortDesc ((firstOccs xs).map (fun k => (k, keyCount xs k)))
/-- Number of distinct values of a column, `series.nunique()`. -/
def nunique (xs : List String) : Nat := (firstOccs xs).length
/-- Result of `basic_stats`: the five entries of the returned dict. -/
structure Stats where
  totalEntries : Nat
  uniqueStates : Nat
  uniqueCities : Nat
  top5States : List (String × Nat)
  top5Cities : List (String × Nat)
  deriving Repr, DecidableEq
/-- The analyzer's `basic_stats`: total rows, distinct State and City counts,
and the first five entries of each column's value_counts. -/
def basic_stats (df : Dataset) : Stats :=
  { totalEntries := df.length
    uniqueStates := nunique (stateCol df)
    uniqueCities := nunique (cityCol df)
    top5States := (value_counts (stateCol df)).take 5
    top5Cities := (value_counts (cityCol df)).take 5 }
/-- The scenario Dataset [(MH, Mumbai), (MH, Pune), (DL, Delhi)]. -/
def exDataset : Dataset := [("MH", "Mumbai"), ("MH", "Pune"), ("DL", "Delhi")]
/-- Stable ascending insertion of a string into a sorted list. -/
def insertAsc (a : String) : List String → List String
  | [] => [a]
  | b :: t => if a ≤ b then a :: b :: t else b :: insertAsc a t
/-- Lexicographic ascending sort, as pandas applies to crosstab labels. -/
def sortAsc (l : List String) : List String :=
  l.foldr insertAsc []
/-- Number of rows with the given State and City values: one cell of
`pd.crosstab(df["State"], df["City"])`. -/
def pairCount (df : Dataset) (s c : String) : Nat :=
  (df.filter (fun r => decide (r.1 = s ∧ r.2 = c))).length
/-- Row labels of the crosstab: the distinct States, sorted. -/
def crosstabIndex (df : Dataset) : List String :=
  sortAsc (firstOccs (stateCol df))
/-- Column labels of the crosstab: the distinct Cities, sorted. -/
def crosstabCols (df : Dataset) : List String :=
  sortAsc (firstOccs (cityCol df))
/-- Sum of all cells of the State×City cross-tabulation. -/
def crosstabSum (df : Dataset) : Nat :=
  ((crosstabIndex df).map
    (fun s => ((crosstabCols df).map (fun c => pairCount df s c)).sum)).sum
/-- Python's `str.strip()`: drop leading and trailing whitespace. -/
def pyStrip (s : String) : String :=
  String.mk (((s.toList.dropWhile Char.isWhitespace).reverse.dropWhile
    Char.isWhitespace).reverse)
/-- One `<tr>` row as the scraper sees it: the State cell and the City cell
found by `row.find`, each possibly absent. -/
structure RawRow where
  stateCell : Option String
  cityCell : Option String
  deriving Repr, DecidableEq
/-- The outcome of one HTTP fetch: `none` models a raised RequestException
(network failure or non-success status); `some rows` models a parsed page
with its matching `tr` rows. -/
abbrev PageResp := Option (List RawRow)
/-- The scraper's row loop: walk the rows, appending the stripped State text
to one list and the stripped City text to the other whenever both cells are
present, skipping the row otherwise. -/
def extractCells : List RawRow → List String × List String
  | [] => ([], [])
  | r :: rest =>
    match r.stateCell, r.cityCell with
    | some s, some c =>
      let p := extractCells rest
      (pyStrip s :: p.1, pyStrip c :: p.2)
    | _, _ => extractCells rest
/-- The record a kept row contributes: both stripped cell texts paired. -/
def rowKept (r : RawRow) : Option Row :=
  match r.stateCell, r.cityCell with
  | some s, some c => some (pyStrip s, pyStrip c)
  | _, _ => none
/-- The scraper `scrape_sih_data`: on a failed fetch return None; otherwise
extract the cells, return None when nothing was extracted, and otherwise the
DataFrame pairing the two columns. -/
def scrape_sih_data (resp : PageResp) : Option Dataset :=
  match resp with
  | none => none
  | some rows =>
    let p := extractCells rows
    if p.1.isEmpty || p.2.isEmpty then none
    else some (p.1.zip p.2)
/-- Concrete page for the C10 scenario: one complete row and one row whose
State cell is missing. -/
def exPage : List RawRow :=
  [{ stateCell := some "MH ", cityCell := some " Mumbai" },
   { stateCell := none, cityCell := some "Pune" }]
/-- The fragments the scraping loop accumulates in `all_data`: one per URL
whose scrape returned a DataFrame. -/
def collectFragments (resps : List PageResp) : List Dataset :=
  resps.filterMap scrape_sih_data
/-- Outcome of the collector's `main`: the combined files' contents (None
when not written) and the final console message. -/
structure ScrapeOutcome where
  combinedCsv : Option Dataset
  combinedJson : Option Dataset
  message : String
  deriving Repr, DecidableEq
/-- The terminal outcome of a run in which no URL yielded data: nothing is
written and the no-data message is printed. -/
def noDataOutcome : ScrapeOutcome :=
  { combinedCsv := none, combinedJson := none
    message := "No data scraped from any URL." }
/-- The collector's `main`: scrape every URL, keep the successful fragments,
and either write the concatenation to both combined files or end with the
no-data message. -/
def scraperMain (resps : List PageResp) : ScrapeOutcome :=
  let all_data := collectFragments resps
  if all_data.isEmpty then
    noDataOutcome
  else
    { combinedCsv := some all_data.flatten,
      combinedJson := some all_data.flatten,
      message := "Data scraping successful!" }
/-- Concrete successful page response. -/
def exRespGood : PageResp := some [{ stateCell := some "MH", cityCell := some "Mumbai" }]
/-- Contents of the scraper's output files after a full run: `sihData` is
what the fixed-named per-URL files sih_data.csv / sih_data.json hold (written
inside scrape_sih_data on every success, overwriting the previous value) and
`combined` is what the combined files hold. -/
structure ScrapeFiles where
  sihData : Option Dataset
  combined : Option Dataset
  deriving Repr, DecidableEq
/-- The collector run viewed through the filesystem: each successful scrape
overwrites the per-URL files; the combined files are written once at the end
when at least one fragment exists. -/
def runScraper (resps : List PageResp) : ScrapeFiles :=
  { sihData := resps.foldl (fun acc resp =>
      match scrape_sih_data resp with
      | some df => some df
      | none => acc) none
    combined := if (collectFragments resps).isEmpty then none
      else some (collectFragments resps).flatten }
/-- Numeric content of the plot_top_states chart: the n most frequent States
with their counts, `df["State"].value_counts().head(n)`. -/
def plot_top_states_data (df : Dataset) (n : Nat) : List (String × Nat) :=
  (value_counts (stateCol df)).take n
/-- Numeric content of the plot_city_distribution chart:
`df["City"].value_counts().head(top_n)`. -/
def plot_city_distribution_data (df : Dataset) (top_n : Nat) : List (String × Nat) :=
  (value_counts (cityCol df)).take top_n
/-- The index of `series.nlargest(k)`: the k keys of largest value, stably
ordered. -/
def nlargestKeys (k : Nat) (l : List (String × Nat)) : List String :=
  ((sortDesc l).take k).map Prod.fst
/-- Row sums of the crosstab, `cross_tab.sum(axis=1)`. -/
def crosstabRowSums (df : Dataset) : List (String × Nat) :=
  (crosstabIndex df).map
    (fun s => (s, ((crosstabCols df).map (fun c => pairCount df s c)).sum))
/-- Column sums of the crosstab, `cross_tab.sum(axis=0)`. -/
def crosstabColSums (df : Dataset) : List (String × Nat) :=
  (crosstabCols df).map
    (fun c => (c, ((crosstabIndex df).map (fun s => pairCount df s c)).sum))
/-- Numeric content of the state_city_heatmap chart: the crosstab restricted
to the top row-sum States and top column-sum Cities,
`cross_tab.loc[top_states, top_cities]`. -/
def state_city_heatmap_data (df : Dataset) (top_states top_cities : Nat) :
    List (List Nat) :=
  let topS := nlargestKeys top_states (crosstabRowSums df)
  let topC := nlargestKeys top_cities (crosstabColSums df)
  topS.map (fun s => topC.map (fun c => pairCount df s c))
/-- Numeric content of the three dashboard panels: top-8 States, top-8
Cities, and the 6×8 heatmap. -/
structure DashboardData where
  stateData : List (String × Nat)
  cityData : List (String × Nat)
  heatmap : List (List Nat)
  deriving Repr, DecidableEq
/-- Numeric content of create_summary_dashboard. -/
def create_summary_dashboard_data (df : Dataset) : DashboardData :=
  { stateData := (value_counts (stateCol df)).take 8
    cityData := (value_counts (cityCol df)).take 8
    heatmap := state_city_heatmap_data df 6 8 }
/-- The SIHAnalyzer object: the loaded dataframe and the configuration set
in the constructor. -/
structure SIHAnalyzer where
  data_path : String
  df : Dataset
  results_dir : String
  deriving Repr, DecidableEq
/-- The basic_stats method as a state transformer: its result and the
analyzer afterwards.  Every pandas operation it uses returns a fresh object,
so the stored dataframe is passed through unchanged. -/
def basic_statsM (a : SIHAnalyzer) : Stats × SIHAnalyzer :=
  (basic_stats a.df, a)
/-- The plot_top_states method as a state transformer. -/
def plot_top_statesM (a : SIHAnalyzer) (n : Nat) :
    List (String × Nat) × SIHAnalyzer :=
  (plot_top_states_data a.df n, a)
/-- The plot_city_distribution method as a state transformer. -/
def plot_city_distributionM (a : SIHAnalyzer) (top_n : Nat) :
    List (String × Nat) × SIHAnalyzer :=
  (plot_city_distribution_data a.df top_n, a)
/-- The state_city_heatmap method as a state transformer. -/
def state_city_heatmapM (a : SIHAnalyzer) (top_states top_cities : Nat) :
    List (List Nat) × SIHAnalyzer :=
  (state_city_heatmap_data a.df top_states top_cities, a)
/-- The create_summary_dashboard method as a state transformer. -/
def create_summary_dashboardM (a : SIHAnalyzer) : DashboardData × SIHAnalyzer :=
  (create_summary_dashboard_data a.df, a)
/-- Does a CSV field need quoting under minimal quoting: it contains the
separator, the quote character, or a line break. -/
def csvNeedsQuote (f : List Char) : Bool :=
  f.any (fun c => decide (c = ',') || decide (c = '"')
    || decide (c = '\n') || decide (c = '\r'))
/-- Body of a quoted CSV field: every quote character is doubled. -/
def csvEscapeBody : List Char → List Char
  | [] => []
  | c :: rest =>
    if c = '"' then '"' :: '"' :: csvEscapeBody rest
    else c :: csvEscapeBody rest
/-- One serialized CSV field, quoted only when needed. -/
def csvField (f : List Char) : List Char :=
  if csvNeedsQuote f then '"' :: (csvEscapeBody f ++ ['"']) else f
/-- One serialized CSV data line: State field, separator, City field,
line terminator. -/
def csvRow (r : List Char × List Char) : List Char :=
  csvField r.1 ++ ',' :: (csvField r.2 ++ ['\n'])
/-- The header line written first by `to_csv(index=False)`. -/
def csvHeader : List Char :=
  ['S', 't', 'a', 't', 'e', ',', 'C', 'i', 't', 'y', '\n']
/-- The full CSV file `df.to_csv(index=False)` writes: header then one line
per record, State before City. -/
def to_csv (rows : List (List Char × List Char)) : List Char :=
  csvHeader ++ (rows.map csvRow).flatten
/-- Parse the remainder of a quoted CSV field after its opening quote: a
doubled quote stays, a single quote ends the field. -/
def parseQuoted : List Char → Option (List Char × List Char)
  | [] => none
  | '"' :: rest =>
    match rest with
    | '"' :: rest2 =>
      match parseQuoted rest2 with
      | some (f, r) => some ('"' :: f, r)
      | none => none
    | _ => some ([], rest)
  | c :: rest =>
    match parseQuoted rest with
    | some (f, r) => some (c :: f, r)
    | none => none
/-- Parse an unquoted CSV field: everything up to the next separator or
line break. -/
def parseUnquoted : List Char → List Char × List Char
  | [] => ([], [])
  | c :: rest =>
    if c = ',' || c = '\n' then ([], c :: rest)
    else
      let p := parseUnquoted rest
      (c :: p.1, p.2)
/-- Parse one CSV field, quoted or not. -/
def parseFieldCsv : List Char → Option (List Char × List Char)
  | '"' :: rest => parseQuoted rest
  | cs => some (parseUnquoted cs)
/-- Parse one CSV data line with its two fields and line terminator. -/
def parseRowCsv (cs : List Char) : Option ((List Char × List Char) × List Char) :=
  match parseFieldCsv cs with
  | some (s, ',' :: rest) =>
    match parseFieldCsv rest with
    | some (c, '\n' :: rest2) => some ((s, c), rest2)
    | _ => none
  | _ => none
/-- Parse all remaining CSV data lines; the fuel bounds the recursion by the
input length. -/
def parseRowsCsv : Nat → List Char → Option (List (List Char × List Char))
  | _, [] => some []
  | 0, _ :: _ => none
  | fuel + 1, c :: cs =>
    match parseRowCsv (c :: cs) with
    | some (r, rest) =>
      match parseRowsCsv fuel rest with
      | some rs => some (r :: rs)
      | none => none
    | none => none
/-- Skip the header line a CSV reader consumes for column names. -/
def dropHeaderLine : List Char → List Char
  | [] => []
  | '\n' :: rest => rest
  | _ :: rest => dropHeaderLine rest
/-- The CSV loader `pd.read_csv` specialized to this two-column file: read
the header for column names, then one record per line. -/
def read_csv (cs : List Char) : Option (List (List Char × List Char)) :=
  let body := dropHeaderLine cs
  parseRowsCsv body.length body
/-- JSON string escaping as applied to each cell text. -/
def jsonEscapeBody : List Char → List Char
  | [] => []
  | c :: rest =>
    if c = '"' then '\\' :: '"' :: jsonEscapeBody rest
    else if c = '\\' then '\\' :: '\\' :: jsonEscapeBody rest
    else if c = '\n' then '\\' :: 'n' :: jsonEscapeBody rest
    else if c = '\r' then '\\' :: 'r' :: jsonEscapeBody rest
    else if c = '\t' then '\\' :: 't' :: jsonEscapeBody rest
    else c :: jsonEscapeBody rest
/-- A serialized JSON string literal. -/
def jsonStringLit (f : List Char) : List Char :=
  '"' :: (jsonEscapeBody f ++ ['"'])
/-- Opening brace character of a JSON object. -/
def lbrace : Char := Char.ofNat 123
/-- Closing brace character of a JSON object. -/
def rbrace : Char := Char.ofNat 125
/-- The serialized State key of a record, quotes and colon included. -/
def stateKey : List Char := ['"', 'S', 't', 'a', 't', 'e', '"', ':']
/-- The serialized City key of a record, quotes and colon included. -/
def cityKey : List Char := ['"', 'C', 'i', 't', 'y', '"', ':']
/-- One serialized record of `to_json(orient="records")`. -/
def jsonRecord (r : List Char × List Char) : List Char :=
  (lbrace :: stateKey ++ ['"']) ++ (jsonEscapeBody r.1 ++ ['"'])
    ++ (',' :: cityKey ++ ['"']) ++ (jsonEscapeBody r.2 ++ ['"']) ++ [rbrace]
/-- Comma-join of the serialized records. -/
def joinComma : List (List Char) → List Char
  | [] => []
  | [x] => x
  | x :: y :: rest => x ++ ',' :: joinComma (y :: rest)
/-- The full JSON file `df.to_json(orient="records")` writes: an array of
records, each with the State key before the City key. -/
def to_json (rows : List (List Char × List Char)) : List Char :=
  '[' :: (joinComma (rows.map jsonRecord) ++ [']'])
/-- Decode one JSON escape character. -/
def jsonUnescape (e : Char) : Option Char :=
  if e = '"' then some '"'
  else if e = '\\' then some '\\'
  else if e = 'n' then some '\n'
  else if e = 'r' then some '\r'
  else if e = 't' then some '\t'
  else none
/-- Parse the remainder of a JSON string after its opening quote. -/
def parseJsonStringBody : List Char → Option (List Char × List Char)
  | [] => none
  | '"' :: rest => some ([], rest)
  | '\\' :: e :: rest =>
    match jsonUnescape e with
    | some c =>
      match parseJsonStringBody rest with
      | some (f, r) => some (c :: f, r)
      | none => none
    | none => none
  | ['\\'] => none
  | c :: rest =>
    match parseJsonStringBody rest with
    | some (f, r) => some (c :: f, r)
    | none => none
/-- Consume an expected literal piece of input. -/
def stripLit : List Char → List Char → Option (List Char)
  | [], cs => some cs
  | _ :: _, [] => none
  | p :: ps, c :: cs => if p = c then stripLit ps cs else none
/-- Parse one serialized record. -/
def parseJsonRecord (cs : List Char) :
    Option ((List Char × List Char) × List Char) :=
  match stripLit (lbrace :: stateKey ++ ['"']) cs with
  | some rest1 =>
    match parseJsonStringBody rest1 with
    | some (s, rest2) =>
      match stripLit (',' :: cityKey ++ ['"']) rest2 with
      | some rest3 =>
        match parseJsonStringBody rest3 with
        | some (c, rest4) =>
          match rest4 with
          | rb :: rest5 => if rb = rbrace then some ((s, c), rest5) else none
          | [] => none
        | none => none
      | none => none
    | none => none
  | none => none
/-- Parse the comma-separated records up to the closing bracket; the fuel
bounds the recursion by the input length. -/
def parseJsonRecords : Nat → List Char → Option (List (List Char × List Char))
  | 0, _ => none
  | fuel + 1, cs =>
    match parseJsonRecord cs with
    | some (r, ',' :: rest) =>
      match parseJsonRecords fuel rest with
      | some rs => some (r :: rs)
      | none => none
    | some (r, [']']) => some [r]
    | _ => none
/-- The JSON loader `pd.read_json` specialized to this array-of-records
file. -/
def read_json : List Char → Option (List (List Char × List Char))
  | '[' :: ']' :: [] => some []
  | '[' :: rest => parseJsonRecords rest.length rest
  | _ => none
/-- The file name component of a path: everything after the last slash. -/
def fileNamePart (p : String) : List Char :=
  (p.toList.reverse.takeWhile (fun c => decide (c ≠ '/'))).reverse
/-- The extension of a path as `pathlib.Path.suffix` computes it: from the
last dot of the name, provided that dot is neither the first nor the last
character of the name. -/
def pathSuffix (p : String) : String :=
  let name := fileNamePart p
  let tail := name.reverse.takeWhile (fun c => decide (c ≠ '.'))
  if tail.length ≠ 0 ∧ tail.length + 1 < name.length then
    String.mk ('.' :: tail.reverse)
  else ""
/-- The analyzer's `load_data`: dispatch on the path's extension, parsing
the file contents with the matching parser, and fail with the
unsupported-format error on any other extension. -/
def load_data (path : String) (contents : List Char) :
    Except String (List (List Char × List Char)) :=
  if pathSuffix path = ".csv" then
    match read_csv contents with
    | some rows => Except.ok rows
    | none => Except.error "CSV parse error"
  else if pathSuffix path = ".json" then
    match read_json contents with
    | some rows => Except.ok rows
    | none => Except.error "JSON parse error"
  else Except.error "Unsupported file format. Use CSV or JSON."

/-- Membership in `firstOccs` is membership in the column. -/
theorem mem_firstOccs {α : Type} [DecidableEq α] {a : α} :
    ∀ {xs : List α}, a ∈ firstOccs xs ↔ a ∈ xs := by
  intro xs
  induction xs with
  | nil => simp [firstOccs]
  | cons x t ih =>
    simp only [firstOccs, List.mem_cons, List.mem_filter]
    constructor
    · rintro (rfl | ⟨h, _⟩)
      · exact Or.inl rfl
      · exact Or.inr (ih.mp h)
    · rintro (rfl | h)
      · exact Or.inl rfl
      · by_cases hax : a = x
        · exact Or.inl hax
        · exact Or.inr ⟨ih.mpr h, by simpa using hax⟩
/-- The list of first occurrences has no duplicates. -/
theorem nodup_firstOccs {α : Type} [DecidableEq α] :
    ∀ (xs : List α), (firstOccs xs).Nodup := by
  intro xs
  induction xs with
  | nil => simp [firstOccs]
  | cons x t ih =>
    simp only [firstOccs]
    refine List.Nodup.cons ?_ (ih.filter _)
    intro hmem
    rcases List.mem_filter.mp hmem with ⟨_, hne⟩
    simp at hne
/-- Summing an indicator over a duplicate-free list that contains the point
gives one. -/
theorem sum_indicator_eq_one {α : Type} [DecidableEq α] {x : α} :
    ∀ {C : List α}, C.Nodup → x ∈ C →
      (C.map (fun k => if x = k then 1 else 0)).sum = 1 := by
  intro C
  induction C with
  | nil => intro _ h; cases h
  | cons c t ih =>
    intro hnd hmem
    rcases List.mem_cons.mp hmem with rfl | hx
    · have hnot : x ∉ t := (List.nodup_cons.mp hnd).1
      have : (t.map (fun k => if x = k then 1 else 0)).sum = 0 := by
        apply List.sum_eq_zero
        intro n hn
        rcases List.mem_map.mp hn with ⟨k, hk, rfl⟩
        have : x ≠ k := fun h => hnot (h ▸ hk)
        simp [this]
      simp [this]
    · have hxc : x ≠ c := by
        rintro rfl
        exact (List.nodup_cons.mp hnd).1 hx
      have := ih (List.nodup_cons.mp hnd).2 hx
      simp [hxc, this]
/-- Partitioning a column by keys drawn from a duplicate-free covering list
accounts for every element exactly once. -/
theorem sum_keyCount_eq_length {α κ : Type} [DecidableEq κ]
    (l : List α) (key : α → κ) (C : List κ)
    (hnd : C.Nodup) (hcov : ∀ a ∈ l, key a ∈ C) :
    (C.map (fun k => (l.filter (fun a => decide (key a = k))).length)).sum
      = l.length := by
  induction l with
  | nil => simp
  | cons a t ih =>
    have hcov' : ∀ b ∈ t, key b ∈ C := fun b hb => hcov b (List.mem_cons_of_mem a hb)
    have step : ∀ k, ((a :: t).filter (fun b => decide (key b = k))).length
        = (if key a = k then 1 else 0)
          + (t.filter (fun b => decide (key b = k))).length := by
      intro k
      by_cases h : key a = k
      · simp [List.filter_cons, h]; omega
      · simp [List.filter_cons, h]
    have hmapeq : C.map (fun k => ((a :: t).filter (fun b => decide (key b = k))).length)
        = C.map (fun k => (if key a = k then 1 else 0)
          + (t.filter (fun b => decide (key b = k))).length) := by
      exact List.map_congr_left (fun k _ => step k)
    rw [hmapeq]
    have hsplit : (C.map (fun k => (if key a = k then 1 else 0)
          + (t.filter (fun b => decide (key b = k))).length)).sum
        = (C.map (fun k => if key a = k then 1 else 0)).sum
          + (C.map (fun k => (t.filter (fun b => decide (key b = k))).length)).sum := by
      induction C with
      | nil => simp
      | cons c cs ihc => simp [List.map_cons, List.sum_cons, ihc]; omega
    rw [hsplit, sum_indicator_eq_one hnd (hcov a (List.mem_cons_self a t)),
      ih hcov']
    simp [Nat.add_comm]
/-- Inserting into a list is a permutation of consing onto it. -/
theorem insertDesc_perm (a : String × Nat) :
    ∀ (l : List (String × Nat)), (insertDesc a l).Perm (a :: l) := by
  intro l
  induction l with
  | nil => simp [insertDesc]
  | cons b t ih =>
    by_cases h : b.2 < a.2
    · simp [insertDesc, h]
    · simp only [insertDesc, if_neg h]
      exact (List.Perm.cons b ih).trans (List.Perm.swap a b t)
/-- Sorting by count is a permutation of the input. -/
theorem sortDesc_perm : ∀ (l : List (String × Nat)), (sortDesc l).Perm l := by
  intro l
  induction l with
  | nil => simp [sortDesc]
  | cons a t ih =>
    have : sortDesc (a :: t) = insertDesc a (sortDesc t) := rfl
    rw [this]
    exact (insertDesc_perm a (sortDesc t)).trans (List.Perm.cons a ih)
/-- Membership after insertion. -/
theorem mem_insertDesc {a x : String × Nat} :
    ∀ {l : List (String × Nat)}, x ∈ insertDesc a l ↔ x = a ∨ x ∈ l := by
  intro l
  exact ⟨fun h => by simpa using (insertDesc_perm a l).mem_iff.mp h,
    fun h => (insertDesc_perm a l).mem_iff.mpr (by simpa using h)⟩
/-- Insertion preserves descending order by count. -/
theorem pairwise_insertDesc (a : String × Nat) :
    ∀ {l : List (String × Nat)},
      l.Pairwise (fun x y => y.2 ≤ x.2) →
      (insertDesc a l).Pairwise (fun x y => y.2 ≤ x.2) := by
  intro l
  induction l with
  | nil => intro _; simp [insertDesc]
  | cons b t ih =>
    intro h
    rcases List.pairwise_cons.mp h with ⟨hb, ht⟩
    by_cases hlt : b.2 < a.2
    · simp only [insertDesc, if_pos hlt]
      refine List.pairwise_cons.mpr ⟨?_, h⟩
      intro x hx
      rcases List.mem_cons.mp hx with rfl | hxt
      · omega
      · have := hb x hxt
        omega
    · simp only [insertDesc, if_neg hlt]
      refine List.pairwise_cons.mpr ⟨?_, ih ht⟩
      intro x hx
      rcases mem_insertDesc.mp hx with rfl | hxt
      · omega
      · exact hb x hxt
/-- Sorting sorts: the result is in descending order of counts. -/
theorem sortDesc_sorted :
    ∀ (l : List (String × Nat)),
      (sortDesc l).Pairwise (fun x y => y.2 ≤ x.2) := by
  intro l
  induction l with
  | nil => simp [sortDesc]
  | cons a t ih => exact pairwise_insertDesc a ih
/-- The summed multiplicities of a column's value_counts give back the
column length. -/
theorem value_counts_sum (xs : List String) :
    ((value_counts xs).map Prod.snd).sum = xs.length := by
  have hperm : ((value_counts xs).map Prod.snd).Perm
      ((((firstOccs xs).map (fun k => (k, keyCount xs k))).map Prod.snd)) :=
    List.Perm.map Prod.snd (sortDesc_perm _)
  rw [hperm.sum_eq, List.map_map]
  have : ((firstOccs xs).map (Prod.snd ∘ fun k => (k, keyCount xs k)))
      = (firstOccs xs).map (fun k => (xs.filter (fun a => decide (a = k))).length) := by
    simp [Function.comp, keyCount]
  rw [this]
  exact sum_keyCount_eq_length xs (fun a => a) (firstOccs xs)
    (nodup_firstOccs xs) (fun a ha => mem_firstOccs.mpr ha)
/-- Ascending insertion permutes. -/
theorem insertAsc_perm (a : String) :
    ∀ (l : List String), (insertAsc a l).Perm (a :: l) := by
  intro l
  induction l with
  | nil => simp [insertAsc]
  | cons b t ih =>
    by_cases h : a ≤ b
    · simp [insertAsc, h]
    · simp only [insertAsc, if_neg h]
      exact (List.Perm.cons b ih).trans (List.Perm.swap a b t)
/-- Ascending sort permutes. -/
theorem sortAsc_perm : ∀ (l : List String), (sortAsc l).Perm l := by
  intro l
  induction l with
  | nil => simp [sortAsc]
  | cons a t ih =>
    have : sortAsc (a :: t) = insertAsc a (sortAsc t) := rfl
    rw [this]
    exact (insertAsc_perm a (sortAsc t)).trans (List.Perm.cons a ih)
/-- One crosstab row sums to the number of Dataset rows with that State. -/
theorem crosstab_row_sum (df : Dataset) (s : String) :
    ((crosstabCols df).map (fun c => pairCount df s c)).sum
      = (df.filter (fun r => decide (r.1 = s))).length := by
  have hcell : ∀ c, pairCount df s c
      = ((df.filter (fun r => decide (r.1 = s))).filter
          (fun r => decide (r.2 = c))).length := by
    intro c
    rw [List.filter_filter]
    unfold pairCount
    congr 1
    apply List.filter_congr
    intro r _
    by_cases h1 : r.1 = s <;> by_cases h2 : r.2 = c <;> simp [h1, h2]
  have hmap : (crosstabCols df).map (fun c => pairCount df s c)
      = (crosstabCols df).map
          (fun c => ((df.filter (fun r => decide (r.1 = s))).filter
            (fun r => decide (r.2 = c))).length) :=
    List.map_congr_left (fun c _ => hcell c)
  rw [hmap]
  exact sum_keyCount_eq_length (df.filter (fun r => decide (r.1 = s)))
    Prod.snd (crosstabCols df)
    ((sortAsc_perm _).nodup_iff.mpr (nodup_firstOccs _))
    (fun a ha => (sortAsc_perm _).mem_iff.mpr
      (mem_firstOccs.mpr (List.mem_map_of_mem Prod.snd (List.mem_of_mem_filter ha))))
/-- C2: the per-State frequency counts sum to the number of rows, the
per-City counts likewise, and all cells of the State×City cross-tabulation
also sum to the number of rows. -/
theorem C2_counts_partition (df : Dataset) :
    ((value_counts (stateCol df)).map Prod.snd).sum = df.length
    ∧ ((value_counts (cityCol df)).map Prod.snd).sum = df.length
    ∧ crosstabSum df = df.length := by
  refine ⟨?_, ?_, ?_⟩
  · rw [value_counts_sum]; simp [stateCol]
  · rw [value_counts_sum]; simp [cityCol]
  · unfold crosstabSum
    have hmap : (crosstabIndex df).map
        (fun s => ((crosstabCols df).map (fun c => pairCount df s c)).sum)
        = (crosstabIndex df).map
            (fun s => (df.filter (fun r => decide (r.1 = s))).length) :=
      List.map_congr_left (fun s _ => crosstab_row_sum df s)
    rw [hmap]
    exact sum_keyCount_eq_length df Prod.fst (crosstabIndex df)
      ((sortAsc_perm _).nodup_iff.mpr (nodup_firstOccs _))
      (fun a ha => (sortAsc_perm _).mem_iff.mpr
        (mem_firstOccs.mpr (List.mem_map_of_mem Prod.fst ha)))
/-- C3: every top-n selection `value_counts().head(n)` (n = 5 in
basic_stats, 10 in plot_top_states, 20 in plot_city_distribution, 8 in the
dashboard) is a sub-sequence of the full frequency ranking, has exactly
min(n, number of distinct values) entries, and is in descending order of
count. -/
theorem C3_topn_selection (xs : List String) (n : Nat) :
    ((value_counts xs).take n).Sublist (value_counts xs)
    ∧ ((value_counts xs).take n).length = min n (nunique xs)
    ∧ ((value_counts xs).take n).Pairwise (fun a b => b.2 ≤ a.2) := by
  refine ⟨List.take_sublist n _, ?_, ?_⟩
  · rw [List.length_take]
    have : (value_counts xs).length = nunique xs := by
      unfold value_counts nunique
      rw [(sortDesc_perm _).length_eq, List.length_map]
    rw [this]
  · exact List.Pairwise.sublist (List.take_sublist n _) (sortDesc_sorted _)
/-- The two cell lists are the two projections of the kept records. -/
theorem extractCells_eq (rows : List RawRow) :
    extractCells rows = ((rows.filterMap rowKept).map Prod.fst,
      (rows.filterMap rowKept).map Prod.snd) := by
  induction rows with
  | nil => rfl
  | cons r rest ih =>
    rcases hs : r.stateCell with _ | s <;> rcases hc : r.cityCell with _ | c
    · have hk : rowKept r = none := by simp [rowKept, hs, hc]
      simp [extractCells, hs, hc, List.filterMap_cons, hk, ih]
    · have hk : rowKept r = none := by simp [rowKept, hs, hc]
      simp [extractCells, hs, hc, List.filterMap_cons, hk, ih]
    · have hk : rowKept r = none := by simp [rowKept, hs, hc]
      simp [extractCells, hs, hc, List.filterMap_cons, hk, ih]
    · have hk : rowKept r = some (pyStrip s, pyStrip c) := by simp [rowKept, hs, hc]
      simp [extractCells, hs, hc, List.filterMap_cons, hk, ih]
/-- On a fetched page the scraper returns exactly the kept records, or None
when there are none. -/
theorem scrape_some (rows : List RawRow) :
    scrape_sih_data (some rows)
      = if rows.filterMap rowKept = [] then none
        else some (rows.filterMap rowKept) := by
  simp only [scrape_sih_data]
  rw [extractCells_eq]
  by_cases h : rows.filterMap rowKept = []
  · simp [h]
  · simp [h, List.zip_map']
/-- C10: scrape_sih_data returns None exactly when the fetch failed or no
row had both a State cell and a City cell; otherwise the State and City
columns have equal length and the result has one record per row with both
cells, holding the whitespace-stripped cell texts. -/
theorem C10_scrape_characterization (resp : PageResp) :
    (scrape_sih_data resp = none ↔
      resp = none ∨ ∃ rows, resp = some rows ∧
        ∀ r ∈ rows, r.stateCell = none ∨ r.cityCell = none)
    ∧ (∀ rows, resp = some rows →
        (extractCells rows).1.length = (extractCells rows).2.length)
    ∧ (∀ rows df, resp = some rows → scrape_sih_data resp = some df →
        df = rows.filterMap rowKept) := by
  have hkept : ∀ r : RawRow,
      rowKept r = none ↔ r.stateCell = none ∨ r.cityCell = none := by
    intro r
    unfold rowKept
    rcases r.stateCell with _ | s <;> rcases r.cityCell with _ | c <;> simp
  refine ⟨?_, ?_, ?_⟩
  · constructor
    · intro h
      rcases resp with _ | rows
      · exact Or.inl rfl
      · refine Or.inr ⟨rows, rfl, ?_⟩
        rw [scrape_some] at h
        by_cases hnil : rows.filterMap rowKept = []
        · intro r hr
          exact (hkept r).mp (List.filterMap_eq_nil_iff.mp hnil r hr)
        · rw [if_neg hnil] at h
          cases h
    · rintro (rfl | ⟨rows, rfl, hall⟩)
      · rfl
      · rw [scrape_some, if_pos (List.filterMap_eq_nil_iff.mpr
          (fun r hr => (hkept r).mpr (hall r hr)))]
  · intro rows _
    rw [extractCells_eq]
    simp
  · intro rows df hresp hdf
    subst hresp
    rw [scrape_some] at hdf
    by_cases hnil : rows.filterMap rowKept = []
    · rw [if_pos hnil] at hdf
      cases hdf
    · rw [if_neg hnil] at hdf
      exact (Option.some_inj.mp hdf).symm
/-- Witness for C10: on the concrete page the kept records are exactly the
stripped cells of the complete row. -/
theorem C10_witness :
    ([("MH", "Mumbai")] : Dataset) = exPage.filterMap rowKept :=
  (C10_scrape_characterization (some exPage)).2.2 exPage [("MH", "Mumbai")]
    rfl (by decide)
/-- C6: a URL whose scrape fails (fetch error or zero valid rows) contributes
no fragment while the URLs before and after it still contribute theirs; and
when every URL fails the run writes no combined files and ends with the
no-data message. -/
theorem C6_failure_isolation :
    (∀ (pre post : List PageResp) (bad : PageResp),
      scrape_sih_data bad = none →
      collectFragments (pre ++ bad :: post)
        = collectFragments pre ++ collectFragments post)
    ∧ (∀ resps : List PageResp, (∀ r ∈ resps, scrape_sih_data r = none) →
      scraperMain resps = noDataOutcome) := by
  constructor
  · intro pre post bad hbad
    unfold collectFragments
    rw [List.filterMap_append, List.filterMap_cons, hbad]
  · intro resps hall
    have hnil : collectFragments resps = [] := List.filterMap_eq_nil_iff.mpr hall
    unfold scraperMain
    rw [hnil]
    rfl
/-- Witness for C6: a page with zero matching rows in the middle of two good
pages contributes nothing, and a run of only failures ends with the no-data
outcome. -/
theorem C6_witness :
    collectFragments [exRespGood, some [], exRespGood]
      = collectFragments [exRespGood] ++ collectFragments [exRespGood]
    ∧ scraperMain [none, some []] = noDataOutcome :=
  ⟨C6_failure_isolation.1 [exRespGood] [exRespGood] (some []) (by decide),
   C6_failure_isolation.2 [none, some []] (by decide)⟩
/-- Folding the overwrite step yields the last fragment, or the starting
contents when no scrape succeeded. -/
theorem scrapeFold_eq (resps : List PageResp) :
    ∀ acc : Option Dataset,
      resps.foldl (fun acc resp =>
        match scrape_sih_data resp with
        | some df => some df
        | none => acc) acc
      = ((collectFragments resps).getLast?).elim acc some := by
  induction resps with
  | nil => intro acc; rfl
  | cons r rest ih =>
    intro acc
    rcases h : scrape_sih_data r with _ | d
    · rw [List.foldl_cons, h]
      have : collectFragments (r :: rest) = collectFragments rest := by
        unfold collectFragments
        rw [List.filterMap_cons, h]
      rw [this]
      exact ih acc
    · rw [List.foldl_cons, h]
      have hfrag : collectFragments (r :: rest) = d :: collectFragments rest := by
        unfold collectFragments
        rw [List.filterMap_cons, h]
      rw [hfrag, ih (some d), List.getLast?_cons]
      rcases hg : (collectFragments rest).getLast? with _ | x <;> simp [hg]
/-- A successful scrape never returns an empty DataFrame. -/
theorem scrape_fragment_nonempty (resp : PageResp) (df : Dataset)
    (h : scrape_sih_data resp = some df) : df ≠ [] := by
  rcases resp with _ | rows
  · exact absurd h (by simp [scrape_sih_data])
  · rw [scrape_some] at h
    by_cases hnil : rows.filterMap rowKept = []
    · rw [if_pos hnil] at h
      cases h
    · rw [if_neg hnil] at h
      rw [← Option.some_inj.mp h]
      exact hnil
/-- C7: after a run the fixed-named per-URL files hold exactly the last
written fragment, every accumulated fragment is non-empty, and the combined
files hold the concatenation of all fragments in URL order. -/
theorem C7_overwrite_vs_combined (resps : List PageResp) :
    (runScraper resps).sihData = (collectFragments resps).getLast?
    ∧ (∀ df ∈ collectFragments resps, df ≠ [])
    ∧ (collectFragments resps ≠ [] →
        (runScraper resps).combined = some (collectFragments resps).flatten) := by
  refine ⟨?_, ?_, ?_⟩
  · show resps.foldl _ none = _
    rw [scrapeFold_eq resps none]
    rcases h : (collectFragments resps).getLast? with _ | x <;> simp [h]
  · intro df hdf
    rcases List.mem_filterMap.mp hdf with ⟨resp, _, hresp⟩
    exact scrape_fragment_nonempty resp df hresp
  · intro hne
    show (if (collectFragments resps).isEmpty then none
      else some (collectFragments resps).flatten) = _
    rw [if_neg (by simpa using hne)]
/-- Witness for C7: on a run with one good page and one failure, the per-URL
files keep the good fragment, the fragment is non-empty, and the combined
files hold the concatenation. -/
theorem C7_witness :
    (runScraper [exRespGood, none]).sihData
        = (collectFragments [exRespGood, none]).getLast?
    ∧ ([("MH", "Mumbai")] : Dataset) ≠ []
    ∧ (runScraper [exRespGood, none]).combined
        = some (collectFragments [exRespGood, none]).flatten :=
  ⟨(C7_overwrite_vs_combined [exRespGood, none]).1,
   (C7_overwrite_vs_combined [exRespGood, none]).2.1 [("MH", "Mumbai")] (by decide),
   (C7_overwrite_vs_combined [exRespGood, none]).2.2 (by decide)⟩
/-- C9: every analyzer operation leaves the stored dataframe unchanged, and
its result is a value derived from that dataframe alone. -/
theorem C9_operations_pure (a : SIHAnalyzer) (n top_n ts tc : Nat) :
    ((basic_statsM a).2.df = a.df ∧ (basic_statsM a).1 = basic_stats a.df)
    ∧ ((plot_top_statesM a n).2.df = a.df
        ∧ (plot_top_statesM a n).1 = plot_top_states_data a.df n)
    ∧ ((plot_city_distributionM a top_n).2.df = a.df
        ∧ (plot_city_distributionM a top_n).1 = plot_city_distribution_data a.df top_n)
    ∧ ((state_city_heatmapM a ts tc).2.df = a.df
        ∧ (state_city_heatmapM a ts tc).1 = state_city_heatmap_data a.df ts tc)
    ∧ ((create_summary_dashboardM a).2.df = a.df
        ∧ (create_summary_dashboardM a).1 = create_summary_dashboard_data a.df) :=
  ⟨⟨rfl, rfl⟩, ⟨rfl, rfl⟩, ⟨rfl, rfl⟩, ⟨rfl, rfl⟩, ⟨rfl, rfl⟩⟩
/-- Parsing a quoted body against its escape: the parser undoes the quote
doubling and stops at the closing quote. -/
theorem parseQuoted_escape :
    ∀ (f rest : List Char), rest.head? ≠ some '"' →
      parseQuoted (csvEscapeBody f ++ '"' :: rest) = some (f, rest) := by
  intro f
  induction f with
  | nil =>
    intro rest h
    rcases rest with _ | ⟨c, r⟩
    · rfl
    · have hc : c ≠ '"' := by simpa using h
      refine parseQuoted.eq_3 (c :: r) ?_
      intro rest2 heq
      injection heq with h1 _
      exact hc h1
  | cons c f ih =>
    intro rest h
    by_cases hc : c = '"'
    · subst hc
      simp [csvEscapeBody, parseQuoted, ih rest h]
    · simp [csvEscapeBody, hc, parseQuoted, ih rest h]
/-- Parsing an unquoted clean field stops exactly at the delimiter. -/
theorem parseUnquoted_clean :
    ∀ (f : List Char) (d : Char) (r : List Char),
      (∀ c ∈ f, ¬(c = ',' ∨ c = '\n')) → (d = ',' ∨ d = '\n') →
      parseUnquoted (f ++ d :: r) = (f, d :: r) := by
  intro f
  induction f with
  | nil =>
    intro d r _ hd
    rcases hd with rfl | rfl <;> simp [parseUnquoted]
  | cons c f ih =>
    intro d r hclean hd
    have hc := hclean c (List.mem_cons_self c f)
    have hc1 : c ≠ ',' := fun h => hc (Or.inl h)
    have hc2 : c ≠ '\n' := fun h => hc (Or.inr h)
    have hrec := ih d r (fun x hx => hclean x (List.mem_cons_of_mem c hx)) hd
    simp [parseUnquoted, hc1, hc2, hrec]
/-- A field whose first character is not a quote parses unquoted. -/
theorem parseFieldCsv_not_quote (c : Char) (cs : List Char) (hc : c ≠ '"') :
    parseFieldCsv (c :: cs) = some (parseUnquoted (c :: cs)) := by
  unfold parseFieldCsv
  split
  · rename_i rest heq
    injection heq with h1 _
    exact absurd h1 hc
  · rfl
/-- Parsing one field against its serialization recovers the field. -/
theorem parseFieldCsv_round (f : List Char) (d : Char) (r : List Char)
    (hd : d = ',' ∨ d = '\n') :
    parseFieldCsv (csvField f ++ d :: r) = some (f, d :: r) := by
  by_cases hq : csvNeedsQuote f
  · have hshape : csvField f ++ d :: r
        = '"' :: (csvEscapeBody f ++ '"' :: (d :: r)) := by
      simp [csvField, hq]
    rw [hshape]
    have hne : (d :: r).head? ≠ some '"' := by
      rcases hd with rfl | rfl <;> simp
    simpa [parseFieldCsv] using parseQuoted_escape f (d :: r) hne
  · have hclean : ∀ c ∈ f, ¬(c = ',' ∨ c = '"' ∨ c = '\n' ∨ c = '\r') := by
      intro c hcf hor
      apply hq
      simp only [csvNeedsQuote, List.any_eq_true]
      refine ⟨c, hcf, ?_⟩
      rcases hor with h | h | h | h <;> simp [h]
    rw [show csvField f = f by simp [csvField, hq]]
    have hclean2 : ∀ c ∈ f, ¬(c = ',' ∨ c = '\n') := by
      intro c hcf hor
      exact hclean c hcf (by rcases hor with h | h <;> simp [h])
    rcases f with _ | ⟨c, f2⟩
    · have hd' : d ≠ '"' := by rcases hd with rfl | rfl <;> simp
      rw [List.nil_append, parseFieldCsv_not_quote d r hd']
      rcases hd with rfl | rfl <;> simp [parseUnquoted]
    · have hc : c ≠ '"' := by
        intro h
        exact hclean c (List.mem_cons_self c f2) (Or.inr (Or.inl h))
      rw [List.cons_append, parseFieldCsv_not_quote c (f2 ++ d :: r) hc]
      have hpe := parseUnquoted_clean (c :: f2) d r hclean2 hd
      rw [List.cons_append] at hpe
      rw [hpe]
/-- Parsing one data line against its serialization recovers the record. -/
theorem parseRowCsv_round (r : List Char × List Char) (rest : List Char) :
    parseRowCsv (csvRow r ++ rest) = some (r, rest) := by
  have hshape : csvRow r ++ rest
      = csvField r.1 ++ ',' :: (csvField r.2 ++ '\n' :: rest) := by
    simp [csvRow, List.append_assoc]
  have h1 := parseFieldCsv_round r.1 ',' (csvField r.2 ++ '\n' :: rest) (Or.inl rfl)
  have h2 := parseFieldCsv_round r.2 '\n' rest (Or.inr rfl)
  rw [hshape]
  simp [parseRowCsv, h1, h2]
/-- A serialized data line is never empty. -/
theorem csvRow_ne_nil (r : List Char × List Char) : csvRow r ≠ [] := by
  simp [csvRow]
/-- Parsing the serialized data lines with enough fuel recovers the rows. -/
theorem parseRowsCsv_round :
    ∀ (rows : List (List Char × List Char)) (fuel : Nat),
      ((rows.map csvRow).flatten).length ≤ fuel →
      parseRowsCsv fuel ((rows.map csvRow).flatten) = some rows := by
  intro rows
  induction rows with
  | nil => intro fuel _; cases fuel <;> rfl
  | cons r rest ih =>
    intro fuel h
    rw [List.map_cons, List.flatten_cons] at h ⊢
    rcases hcr : csvRow r with _ | ⟨c, cs⟩
    · exact absurd hcr (csvRow_ne_nil r)
    · rw [hcr] at h
      rw [List.cons_append] at h ⊢
      cases fuel with
      | zero => simp at h
      | succ f =>
        have hlen : ((rest.map csvRow).flatten).length ≤ f := by
          simp at h ⊢
          omega
        have hrow : parseRowCsv (c :: (cs ++ (rest.map csvRow).flatten))
            = some (r, (rest.map csvRow).flatten) := by
          rw [← List.cons_append, ← hcr]
          exact parseRowCsv_round r _
        simp [parseRowsCsv, hrow, ih f hlen]
/-- Skipping the header line of a written file leaves exactly the data
lines. -/
theorem dropHeaderLine_csvHeader (body : List Char) :
    dropHeaderLine (csvHeader ++ body) = body := rfl
/-- The CSV round trip: reading back a written Dataset yields the identical
sequence of records. -/
theorem read_csv_roundtrip (rows : List (List Char × List Char)) :
    read_csv (to_csv rows) = some rows := by
  show parseRowsCsv (dropHeaderLine (to_csv rows)).length
    (dropHeaderLine (to_csv rows)) = some rows
  rw [show to_csv rows = csvHeader ++ (rows.map csvRow).flatten from rfl,
    dropHeaderLine_csvHeader]
  exact parseRowsCsv_round rows _ le_rfl
/-- Consuming a literal that is present succeeds and leaves the rest. -/
theorem stripLit_append : ∀ (p cs : List Char), stripLit p (p ++ cs) = some cs := by
  intro p
  induction p with
  | nil => intro cs; rfl
  | cons a ps ih => intro cs; simp [stripLit, ih]
/-- Parsing a JSON string body against its escape recovers the text. -/
theorem parseJsonStringBody_round :
    ∀ (f rest : List Char),
      parseJsonStringBody (jsonEscapeBody f ++ '"' :: rest) = some (f, rest) := by
  intro f
  induction f with
  | nil => intro rest; rfl
  | cons c f ih =>
    intro rest
    by_cases h1 : c = '"'
    · subst h1
      simp [jsonEscapeBody, parseJsonStringBody, jsonUnescape, ih rest]
    · by_cases h2 : c = '\\'
      · subst h2
        simp [jsonEscapeBody, parseJsonStringBody, jsonUnescape, ih rest]
      · by_cases h3 : c = '\n'
        · subst h3
          simp [jsonEscapeBody, parseJsonStringBody, jsonUnescape, ih rest]
        · by_cases h4 : c = '\r'
          · subst h4
            simp [jsonEscapeBody, parseJsonStringBody, jsonUnescape, ih rest]
          · by_cases h5 : c = '\t'
            · subst h5
              simp [jsonEscapeBody, parseJsonStringBody, jsonUnescape, ih rest]
            · simp [jsonEscapeBody, h1, h2, h3, h4, h5, parseJsonStringBody, ih rest]
/-- Parsing one serialized record recovers it. -/
theorem parseJsonRecord_round (r : List Char × List Char) (rest : List Char) :
    parseJsonRecord (jsonRecord r ++ rest) = some (r, rest) := by
  have hshape : jsonRecord r ++ rest
      = (lbrace :: stateKey ++ ['"'])
        ++ (jsonEscapeBody r.1 ++ '"' :: ((',' :: cityKey ++ ['"'])
          ++ (jsonEscapeBody r.2 ++ '"' :: (rbrace :: rest)))) := by
    simp [jsonRecord, List.append_assoc]
  rw [hshape]
  simp [parseJsonRecord, stripLit, stateKey, cityKey, parseJsonStringBody_round]
/-- Comma-joined records always start with an opening brace. -/
theorem joinComma_head (r : List Char × List Char)
    (rows : List (List Char × List Char)) :
    ∃ t, joinComma ((r :: rows).map jsonRecord) = lbrace :: t := by
  rcases rows with _ | ⟨r2, rest⟩
  · exact ⟨_, rfl⟩
  · exact ⟨_, rfl⟩
/-- Parsing the serialized records with enough fuel recovers the rows. -/
theorem parseJsonRecords_round :
    ∀ (rows : List (List Char × List Char)), rows ≠ [] → ∀ (fuel : Nat),
      (joinComma (rows.map jsonRecord) ++ [']']).length ≤ fuel →
      parseJsonRecords fuel (joinComma (rows.map jsonRecord) ++ [']'])
        = some rows := by
  intro rows
  induction rows with
  | nil => intro h; exact absurd rfl h
  | cons r rest ih =>
    intro _ fuel h
    rcases rest with _ | ⟨r2, rest2⟩
    · rw [List.map_cons, List.map_nil] at h ⊢
      rw [show joinComma [jsonRecord r] = jsonRecord r from rfl] at h ⊢
      cases fuel with
      | zero => simp at h
      | succ f => simp [parseJsonRecords, parseJsonRecord_round r [']']]
    · rw [List.map_cons] at h ⊢
      rw [show joinComma (jsonRecord r :: (r2 :: rest2).map jsonRecord)
          = jsonRecord r ++ ',' :: joinComma ((r2 :: rest2).map jsonRecord)
          from rfl] at h ⊢
      cases fuel with
      | zero => simp at h
      | succ f =>
        have hlen : (joinComma ((r2 :: rest2).map jsonRecord) ++ [']']).length ≤ f := by
          simp at h ⊢
          omega
        have hrec := ih (by simp) f hlen
        rw [show (jsonRecord r ++ ',' :: joinComma ((r2 :: rest2).map jsonRecord)) ++ [']']
          = jsonRecord r ++ ',' :: (joinComma ((r2 :: rest2).map jsonRecord) ++ [']'])
          by simp]
        simp only [List.map_cons] at hrec
        simp [parseJsonRecords, parseJsonRecord_round r _, hrec]
/-- The JSON round trip: reading back a written Dataset yields the identical
sequence of records. -/
theorem read_json_roundtrip (rows : List (List Char × List Char)) :
    read_json (to_json rows) = some rows := by
  rcases rows with _ | ⟨r, rest⟩
  · rfl
  · obtain ⟨t, ht⟩ := joinComma_head r rest
    have hshape : to_json (r :: rest) = '[' :: lbrace :: (t ++ [']']) := by
      show '[' :: (joinComma ((r :: rest).map jsonRecord) ++ [']']) = _
      rw [ht]
      rfl
    rw [hshape]
    show parseJsonRecords (lbrace :: (t ++ [']'])).length (lbrace :: (t ++ [']']))
      = some (r :: rest)
    have hback : lbrace :: (t ++ [']'])
        = joinComma ((r :: rest).map jsonRecord) ++ [']'] := by
      rw [ht]
      rfl
    rw [hback]
    exact parseJsonRecords_round (r :: rest) (by simp) _ le_rfl
/-- C4: writing a Dataset with to_csv(index=False) and reading it back with
the loader's CSV parser yields the identical record sequence, and likewise
for the to_json(orient=records) form with the JSON parser; the loader
applied to the written files recovers the Dataset. -/
theorem C4_persistence_roundtrip (rows : List (List Char × List Char)) :
    read_csv (to_csv rows) = some rows
    ∧ read_json (to_json rows) = some rows
    ∧ load_data "combined_sih_data.csv" (to_csv rows) = Except.ok rows
    ∧ load_data "combined_sih_data.json" (to_json rows) = Except.ok rows := by
  have hc := read_csv_roundtrip rows
  have hj := read_json_roundtrip rows
  refine ⟨hc, hj, ?_, ?_⟩
  · unfold load_data
    rw [if_pos (show pathSuffix "combined_sih_data.csv" = ".csv" by decide), hc]
  · unfold load_data
    rw [if_neg (show ¬pathSuffix "combined_sih_data.json" = ".csv" by decide),
      if_pos (show pathSuffix "combined_sih_data.json" = ".json" by decide), hj]
/-- C5: load_data dispatches on the path's extension alone: a ".csv" path is
handled by the CSV parser, a ".json" path by the JSON parser, and any other
extension yields the unsupported-format error without the contents being
examined at all. -/
theorem C5_extension_dispatch (path : String) (c1 c2 : List Char) :
    (pathSuffix path = ".csv" →
      load_data path c1 = match read_csv c1 with
        | some rows => Except.ok rows
        | none => Except.error "CSV parse error")
    ∧ (pathSuffix path = ".json" →
      load_data path c1 = match read_json c1 with
        | some rows => Except.ok rows
        | none => Except.error "JSON parse error")
    ∧ (pathSuffix path ≠ ".csv" → pathSuffix path ≠ ".json" →
      load_data path c1 = Except.error "Unsupported file format. Use CSV or JSON."
        ∧ load_data path c1 = load_data path c2) := by
  refine ⟨?_, ?_, ?_⟩
  · intro h
    unfold load_data
    rw [if_pos h]
  · intro h
    unfold load_data
    rw [if_neg (by rw [h]; decide), if_pos h]
  · intro h1 h2
    exact ⟨by simp [load_data, h1, h2], by simp [load_data, h1, h2]⟩
/-- Witness for C5: a ".txt" path fails with the unsupported-format error,
independently of the file contents. -/
theorem C5_witness :
    load_data "data.txt" [] = Except.error "Unsupported file format. Use CSV or JSON."
    ∧ load_data "data.txt" [] = load_data "data.txt" ['x'] :=
  (C5_extension_dispatch "data.txt" [] ['x']).2.2 (by decide) (by decide)
/-- C1: basic_stats reports Total Entries equal to the number of rows of the
Dataset, and on [(MH, Mumbai), (MH, Pune), (DL, Delhi)] it reports Total
Entries 3, Unique States 2, Unique Cities 3, and MH with count 2 as the top
State. -/
theorem C1_basic_stats_total_entries :
    (∀ df : Dataset, (basic_stats df).totalEntries = df.length)
    ∧ (basic_stats exDataset).totalEntries = 3
    ∧ (basic_stats exDataset).uniqueStates = 2
    ∧ (basic_stats exDataset).uniqueCities = 3
    ∧ (basic_stats exDataset).top5States.head? = some ("MH", 2) := by
  refine ⟨fun df => rfl, ?_, ?_, ?_, ?_⟩ <;> decide
